import Mathlib

/-!
Shallow embedding of `src/main.py` (pokemon-go-events service).

The program fetches a JSON feed of game events, caches it, and serves a
composed slide view.  Pure pipeline pieces (`_parse_dt_utc`, `format_date`,
`_norm_heading`, `_is_excluded_heading`, `_event_to_list_item`, the
classification loop and the slide composition inside `get_events`) are
translated into Lean functions below; the cache plus the busy flag become an
explicit state record, and the fetch becomes an explicit outcome parameter
(the Python `fetch_events` catches every exception and returns `[]`).

Python `datetime` values are modelled at one-minute granularity: a value is a
naive wall-clock count of minutes since the Unix epoch together with an
optional UTC-offset (in minutes, `None` = naive).  Aware datetimes compare by
their absolute instant (wall minus offset), which the model mirrors.  The
third-party permissive parser `dateutil.parser.parse` is an external library,
so it is a parameter `parse : String → Option PyDateTime` of the development;
everything written in `main.py` itself is embedded concretely.
-/

namespace PoGoEvents

/-- A Python `datetime`: naive wall-clock minutes since the epoch plus an
optional `utcoffset` in minutes (`none` = no `tzinfo`). -/
structure PyDateTime where
  wall : Int
  tz : Option Int
deriving DecidableEq

/-- The absolute instant of a (possibly aware) datetime, in UTC minutes:
Python compares aware datetimes by `wall - utcoffset`. -/
def instant (dt : PyDateTime) : Int :=
  dt.wall - dt.tz.getD 0

/-- Python `dt.astimezone(timezone.utc)`: same instant, offset zero,
wall clock rewritten to UTC. -/
def astimezoneUtc (dt : PyDateTime) : PyDateTime :=
  { wall := instant dt, tz := some 0 }

/-- One raw feed event (`dict` in Python); every field read by `main.py` is an
optional string, `none` modelling an absent key or JSON `null`. -/
structure RawEvent where
  name : Option String
  heading : Option String
  start : Option String
  «end» : Option String
  image : Option String
  link : Option String
deriving DecidableEq

/-- `EXCLUDED_HEADINGS` from `main.py` line 23. -/
def EXCLUDED_HEADINGS : List String := ["go battle league"]

/-- `UPCOMING_WINDOW_DAYS` from `main.py` line 24. -/
def UPCOMING_WINDOW_DAYS : Nat := 30

/-- Minutes in a day, used to express `timedelta(days=n)` at the model's
one-minute granularity. -/
def minutesPerDay : Int := 1440

/-- `_parse_dt_utc` (`main.py` lines 60-71): empty/absent input or a parser
failure yields `none`; a naive result is stamped UTC (`replace(tzinfo=utc)`);
the result is converted to UTC (`astimezone(utc)`). -/
def _parse_dt_utc (parse : String → Option PyDateTime) (date_str : Option String) :
    Option PyDateTime :=
  match date_str with
  | none => none
  | some s =>
    if s = "" then none
    else
      match parse s with
      | none => none
      | some dt =>
        let dt := if dt.tz = none then { dt with tz := some 0 } else dt
        some (astimezoneUtc dt)

/-- Hinnant's civil-from-days conversion: day count since 1970-01-01 to
(year, month, day) in the proleptic Gregorian calendar (what `datetime`
uses for `strftime`). -/
def civilFromDays (z : Int) : Int × Int × Int :=
  let zs := z + 719468
  let era := zs.ediv 146097
  let doe := zs.emod 146097
  let yoe := (doe - doe.ediv 1460 + doe.ediv 36524 - doe.ediv 146096).ediv 365
  let y := yoe + era * 400
  let doy := doe - (365 * yoe + yoe.ediv 4 - yoe.ediv 100)
  let mp := (5 * doy + 2).ediv 153
  let d := doy - (153 * mp + 2).ediv 5 + 1
  let m := mp + (if mp < 10 then 3 else (-9 : Int))
  (y + (if m ≤ 2 then 1 else 0), m, d)

/-- `%b` month abbreviations (C locale), as `strftime` renders them. -/
def monthAbbrev (m : Int) : String :=
  match m with
  | 1 => "Jan" | 2 => "Feb" | 3 => "Mar" | 4 => "Apr" | 5 => "May" | 6 => "Jun"
  | 7 => "Jul" | 8 => "Aug" | 9 => "Sep" | 10 => "Oct" | 11 => "Nov" | 12 => "Dec"
  | _ => ""

/-- Two-digit zero padding for day/hour/minute fields. -/
def pad2 (n : Int) : String :=
  if n < 10 then "0" ++ toString n else toString n

/-- `dt.strftime("%b %d, %H:%M")` on the wall clock of `dt`. -/
def strftimeBDHM (dt : PyDateTime) : String :=
  let days := dt.wall.ediv minutesPerDay
  let minOfDay := dt.wall.emod minutesPerDay
  let ymd := civilFromDays days
  monthAbbrev ymd.2.1 ++ " " ++ pad2 ymd.2.2 ++ ", " ++
    pad2 (minOfDay.ediv 60) ++ ":" ++ pad2 (minOfDay.emod 60)

/-- Python `str.strip()`: drop leading and trailing whitespace (ASCII
whitespace, which covers every string the program strips). -/
def pyStrip (s : String) : String :=
  String.mk (((s.toList.dropWhile Char.isWhitespace).reverse.dropWhile
    Char.isWhitespace).reverse)

/-- Python `str.casefold`, modelled as ASCII lowercasing — faithful on every
heading the program compares against its ASCII exclusion set. -/
def pyCasefold (s : String) : String :=
  String.mk (s.toList.map Char.toLower)

/-- `format_date` (`main.py` lines 74-78): render the normalized timestamp, or
fall back to the trimmed raw string when normalization fails. -/
def format_date (parse : String → Option PyDateTime) (date_str : Option String) : String :=
  match _parse_dt_utc parse date_str with
  | none => pyStrip (date_str.getD "")
  | some dt => strftimeBDHM dt

/-- Collapse each maximal run of whitespace to a single space
(the `re.sub(r"\s+", " ", t)` step of `_norm_heading`). -/
def collapseWsRuns : List Char → List Char
  | [] => []
  | [c] => if c.isWhitespace then [' '] else [c]
  | c1 :: c2 :: rest =>
    if c1.isWhitespace && c2.isWhitespace then collapseWsRuns (c2 :: rest)
    else (if c1.isWhitespace then ' ' else c1) :: collapseWsRuns (c2 :: rest)

/-- `_norm_heading` (`main.py` lines 81-84): strip, then collapse internal
whitespace runs to single spaces. -/
def _norm_heading (s : Option String) : String :=
  let t := pyStrip (s.getD "")
  String.mk (collapseWsRuns t.toList)

/-- `_is_excluded_heading` (`main.py` lines 87-89). -/
def _is_excluded_heading (heading : Option String) : Bool :=
  EXCLUDED_HEADINGS.contains (pyCasefold (_norm_heading heading))

/-- Python `str.strip(" -")`: drop the characters `' '` and `'-'` from both
ends of the string. -/
def stripSpaceDash (s : String) : String :=
  let isCut := fun c => c = ' ' || c = '-'
  String.mk (((s.toList.dropWhile isCut).reverse.dropWhile isCut).reverse)

/-- One slide list item (`_event_to_list_item` output dict). -/
structure ListItem where
  title : String
  subtitle : String
  imageUrl : Option String
  value : String
  url : Option String
deriving DecidableEq

/-- `_event_to_list_item` (`main.py` lines 92-110). -/
def _event_to_list_item (parse : String → Option PyDateTime) (event : RawEvent)
    (subtitle_override : Option String := none) (value_override : Option String := none) :
    ListItem :=
  let value :=
    match value_override with
    | some v => pyStrip v
    | none =>
      let start_str := format_date parse event.start
      let end_str := format_date parse event.«end»
      stripSpaceDash (start_str ++ " - " ++ end_str)
  { title := pyStrip (event.name.getD "")
    subtitle := pyStrip (subtitle_override.getD "")
    imageUrl := event.image
    value := value
    url := event.link }

/-- The `upcoming_cutoff` of `get_events`: `now + timedelta(days=30)`. -/
def upcomingCutoff (now : Int) : Int :=
  now + (UPCOMING_WINDOW_DAYS : Int) * minutesPerDay

/-- The classification loop of `get_events` (`main.py` lines 122-136): events
with an unparseable endpoint or an excluded heading are skipped; the rest go
to `current_events` when `start_dt <= now <= end_dt`, to `upcoming_events`
when `start_dt > now and start_dt <= upcoming_cutoff`, in feed order. -/
def classifyEvents (parse : String → Option PyDateTime) (now : Int) :
    List RawEvent → List RawEvent × List RawEvent
  | [] => ([], [])
  | e :: rest =>
    let r := classifyEvents parse now rest
    match _parse_dt_utc parse e.start, _parse_dt_utc parse e.«end» with
    | some sd, some ed =>
      if _is_excluded_heading e.heading then r
      else if instant sd ≤ now ∧ now ≤ instant ed then (e :: r.1, r.2)
      else if now < instant sd ∧ instant sd ≤ upcomingCutoff now then (r.1, e :: r.2)
      else r
    | _, _ => r

/-- An insertion-ordered mapping from category key to event list, the model of
the Python `dict[str, list[dict]]` built with `setdefault`. -/
abbrev Groups := List (String × List RawEvent)

/-- `grouped.setdefault(k, []).append(e)`: append to the existing key's list,
or add a new `(k, [e])` entry at the end (dict insertion order). -/
def groupAppend (g : Groups) (k : String) (e : RawEvent) : Groups :=
  match g with
  | [] => [(k, [e])]
  | (k1, l) :: rest =>
    if k1 = k then (k1, l ++ [e]) :: rest else (k1, l) :: groupAppend rest k e

/-- The grouping key: `_norm_heading(ev.get("heading")) or "Other"`. -/
def headingKey (e : RawEvent) : String :=
  let t := _norm_heading e.heading
  if t = "" then "Other" else t

/-- The grouping loops of `get_events` (`main.py` lines 139-142 and 159-162). -/
def groupByHeading (evs : List RawEvent) : Groups :=
  evs.foldl (fun g e => groupAppend g (headingKey e) e) []

/-- `k in grouped` (dict key membership). -/
def hasKey (g : Groups) (k : String) : Bool :=
  g.any (fun p => p.1 == k)

/-- `grouped[k]` / the value part of `grouped.pop(k, [])`: first (for a dict,
only) entry under `k`, defaulting to `[]`. -/
def lookupGroup (g : Groups) (k : String) : List RawEvent :=
  match g.find? (fun p => p.1 == k) with
  | some p => p.2
  | none => []

/-- The removal part of `grouped.pop(k, [])`: drop the entry keyed `k`
(dict keys are unique; the model removes the first occurrence). -/
def removeKey (g : Groups) (k : String) : Groups :=
  match g with
  | [] => []
  | (k1, l) :: rest => if k1 = k then rest else (k1, l) :: removeKey rest k

/-- `grouped.pop(k, [])`: the looked-up list together with the map without `k`. -/
def popGroup (g : Groups) (k : String) : List RawEvent × Groups :=
  (lookupGroup g k, removeKey g k)

/-- The default event image URL used by the synthetic item and the fallback
slide. -/
def defaultImg : String :=
  "https://cdn.leekduck.com/assets/img/events/events-default-img.jpg"

/-- The generic events link put on every slide. -/
def leekUrl : String := "https://leekduck.com/events/"

/-- The synthetic "Trade Day" record injected on Sundays
(`main.py` lines 150-157); it carries no `start`/`end` keys. -/
def tradeDayEvent (target : String) : RawEvent :=
  { name := some "Trade Day", heading := some target, start := none,
    «end» := none, image := some defaultImg, link := some leekUrl }

/-- The Sunday injection (`main.py` lines 148-157): target `"Event"` when that
key exists, else `"Events"`, then `setdefault(...).append(...)`. -/
def addTradeDay (g : Groups) : Groups :=
  let target := if hasKey g "Event" then "Event" else "Events"
  groupAppend g target (tradeDayEvent target)

/-- The sort key for current groups: `_parse_dt_utc(e.get("end")) or now`,
compared as an instant (datetimes are never falsy, so `or now` fires exactly
on a `None` parse — in the pipeline, only for the synthetic Trade Day). -/
def keyEndOrNow (parse : String → Option PyDateTime) (now : Int) (e : RawEvent) : Int :=
  match _parse_dt_utc parse e.«end» with
  | some dt => instant dt
  | none => now

/-- The sort key for upcoming groups: `_parse_dt_utc(e.get("start")) or now`. -/
def keyStartOrNow (parse : String → Option PyDateTime) (now : Int) (e : RawEvent) : Int :=
  match _parse_dt_utc parse e.start with
  | some dt => instant dt
  | none => now

/-- Lexicographic order on the `(datetime, str, str)` sort tuples Python
builds for the research and upcoming sorts. -/
def lexLe3 (x y : Int × String × String) : Prop :=
  x.1 < y.1 ∨ (x.1 = y.1 ∧ (x.2.1 < y.2.1 ∨ (x.2.1 = y.2.1 ∧ x.2.2 ≤ y.2.2)))

instance : DecidableRel lexLe3 := fun x y =>
  inferInstanceAs (Decidable (x.1 < y.1 ∨
    (x.1 = y.1 ∧ (x.2.1 < y.2.1 ∨ (x.2.1 = y.2.1 ∧ x.2.2 ≤ y.2.2)))))

/-- `evs.sort(key=lambda e: _parse_dt_utc(e.get("end")) or now)` applied to
each current group in place (`main.py` lines 167-168); Python's sort is
stable, modelled by a stable insertion sort. -/
def sortCurrentGroups (parse : String → Option PyDateTime) (now : Int) (g : Groups) : Groups :=
  g.map (fun p =>
    (p.1, p.2.insertionSort (fun a b => keyEndOrNow parse now a ≤ keyEndOrNow parse now b)))

/-- `evs.sort(key=lambda e: _parse_dt_utc(e.get("start")) or now)` applied to
each upcoming group (`main.py` lines 169-170; the result is never read by the
slide assembly, but the source computes it). -/
def sortUpcomingGroups (parse : String → Option PyDateTime) (now : Int) (g : Groups) : Groups :=
  g.map (fun p =>
    (p.1, p.2.insertionSort (fun a b => keyStartOrNow parse now a ≤ keyStartOrNow parse now b)))

/-- A slide dict; fields that a given slide shape omits are `none`
(`type` appears only on the split slide, `value`/`imageUrl` only on the
fallback slide, `items` on every slide but the fallback). -/
structure Slide where
  type : Option String := none
  title : String
  subtitle : String
  maxItems : Option Nat := none
  items : Option (List ListItem) := none
  rightTitle : Option String := none
  rightSubtitle : Option String := none
  rightItems : Option (List ListItem) := none
  value : Option String := none
  imageUrl : Option String := none
  url : String
deriving DecidableEq

/-- All items a slide displays: main pane plus right pane. -/
def slideAllItems (s : Slide) : List ListItem :=
  s.items.getD [] ++ s.rightItems.getD []

/-- The Season / GO Pass split-slide rule (`main.py` lines 174-189): pop both
groups; when either is non-empty emit one split slide, left pane GO Pass
capped at 5, right pane Season capped at 5. -/
def seasonGoPassStage (parse : String → Option PyDateTime) (g : Groups) :
    List Slide × Groups :=
  let season := popGroup g "Season"
  let goPass := popGroup season.2 "GO Pass"
  if season.1.isEmpty && goPass.1.isEmpty then ([], goPass.2)
  else
    ([{ type := some "split-slide", title := "GO Pass", subtitle := "Current",
        items := some ((goPass.1.map (fun e => _event_to_list_item parse e)).take 5),
        rightTitle := some "Season", rightSubtitle := some "Current",
        rightItems := some ((season.1.map (fun e => _event_to_list_item parse e)).take 5),
        url := leekUrl }], goPass.2)

/-- The `(end-or-now, source label, name-or-empty)` key of the research sort
(`main.py` line 196). -/
def researchKey (parse : String → Option PyDateTime) (now : Int)
    (p : String × RawEvent) : Int × String × String :=
  (keyEndOrNow parse now p.2, p.1, p.2.name.getD "")

/-- The labelled, sorted combined research list (`main.py` lines 195-196). -/
def researchCombinedSorted (parse : String → Option PyDateTime) (now : Int)
    (research timed : List RawEvent) : List (String × RawEvent) :=
  (research.map (fun e => ("Research", e)) ++
      timed.map (fun e => ("Timed Research", e))).insertionSort
    (fun p q => lexLe3 (researchKey parse now p) (researchKey parse now q))

/-- The research merge rule (`main.py` lines 192-205): pop `"Research"` and
`"Timed Research"`; when either is non-empty emit one slide titled
`"Current research"` with `maxItems` 50, items the sorted combined list with
each item's subtitle overridden by its source label.  The item list itself is
not truncated. -/
def researchStage (parse : String → Option PyDateTime) (now : Int) (g : Groups) :
    List Slide × Groups :=
  let research := popGroup g "Research"
  let timed := popGroup research.2 "Timed Research"
  if research.1.isEmpty && timed.1.isEmpty then ([], timed.2)
  else
    let combined := researchCombinedSorted parse now research.1 timed.1
    ([{ title := "Current research", subtitle := "Research + Timed Research",
        maxItems := some 50,
        items := some (combined.map (fun p => _event_to_list_item parse p.2 (some p.1))),
        url := leekUrl }], timed.2)

/-- The Raid Battles priority rule (`main.py` lines 208-217): pop the group
and, when non-empty, emit it next capped at 10 items. -/
def raidStage (parse : String → Option PyDateTime) (g : Groups) : List Slide × Groups :=
  let raid := popGroup g "Raid Battles"
  if raid.1.isEmpty then ([], raid.2)
  else
    ([{ title := "Current Raid Battles", subtitle := "Raid Battles",
        items := some ((raid.1.map (fun e => _event_to_list_item parse e)).take 10),
        url := leekUrl }], raid.2)

/-- One remaining-category slide (`main.py` lines 224-231). -/
def mkRemainingSlide (parse : String → Option PyDateTime) (heading : String)
    (evs : List RawEvent) : Slide :=
  { title := "Current " ++ heading, subtitle := heading,
    items := some ((evs.map (fun e => _event_to_list_item parse e)).take 10),
    url := leekUrl }

/-- The loop body of the remaining-categories pass: skip an empty group,
otherwise emit its slide. -/
def remainingSlideFor (parse : String → Option PyDateTime) (g : Groups)
    (heading : String) : Option Slide :=
  let evs := lookupGroup g heading
  if evs.isEmpty then none else some (mkRemainingSlide parse heading evs)

/-- The remaining-categories pass (`main.py` lines 220-231): iterate
`sorted(grouped_current.keys())`, skip empty groups, and emit one slide per
group capped at 10 items. -/
def remainingSlides (parse : String → Option PyDateTime) (g : Groups) : List Slide :=
  ((g.map Prod.fst).insertionSort (fun a b => a ≤ b)).filterMap
    (remainingSlideFor parse g)

/-- The `(start-or-now, normalized-heading-or-Other, name-or-empty)` key of
the upcoming sort (`main.py` lines 235-241). -/
def upcomingKey (parse : String → Option PyDateTime) (now : Int) (e : RawEvent) :
    Int × String × String :=
  (keyStartOrNow parse now e, headingKey e, e.name.getD "")

/-- The upcoming slide rule (`main.py` lines 233-256): when the upcoming list
is non-empty, sort it by `(start, heading, name)` and emit one slide with
`maxItems` 200 (again without truncating the item list), each item's subtitle
overridden by the event's normalized heading. -/
def upcomingStage (parse : String → Option PyDateTime) (now : Int)
    (upcoming : List RawEvent) : List Slide :=
  if upcoming.isEmpty then []
  else
    let sortedUpc := upcoming.insertionSort
      (fun a b => lexLe3 (upcomingKey parse now a) (upcomingKey parse now b))
    [{ title := "Upcoming events",
       subtitle := "Next " ++ toString UPCOMING_WINDOW_DAYS ++ " days",
       maxItems := some 200,
       items := some (sortedUpc.map (fun e =>
         _event_to_list_item parse e (some (headingKey e)))),
       url := leekUrl }]

/-- The guaranteed fallback slide (`main.py` lines 258-269). -/
def fallbackSlide : Slide :=
  { title := "No current events", subtitle := "Pokemon GO",
    value := some "No active events right now",
    imageUrl := some defaultImg, url := leekUrl }

/-- The sorted current-groups map handed to the composition rules: group the
current events, inject the Sunday synthetic, sort every group by end time
(`main.py` lines 139-168). -/
def currentGroupsSorted (parse : String → Option PyDateTime) (now : Int)
    (raw : List RawEvent) (sunday : Bool) : Groups :=
  let g0 := groupByHeading (classifyEvents parse now raw).1
  sortCurrentGroups parse now (if sunday then addTradeDay g0 else g0)

/-- The current-groups map left after the Season/GO Pass, research and Raid
Battles rules have consumed their groups — the input of the
remaining-categories pass. -/
def currentGroupsAfterStages (parse : String → Option PyDateTime) (now : Int)
    (raw : List RawEvent) (sunday : Bool) : Groups :=
  (raidStage parse (researchStage parse now
    (seasonGoPassStage parse (currentGroupsSorted parse now raw sunday)).2).2).2

/-- The slide-composition pipeline of `get_events` (`main.py` lines 119-271)
as a function of the raw event list, the UTC instant `now`, and whether the
server-local calendar day is Sunday. -/
def composeSlides (parse : String → Option PyDateTime) (raw : List RawEvent)
    (now : Int) (sunday : Bool) : List Slide :=
  let cu := classifyEvents parse now raw
  let g2 := currentGroupsSorted parse now raw sunday
  let _gu1 := sortUpcomingGroups parse now (groupByHeading cu.2)
  let r1 := seasonGoPassStage parse g2
  let r2 := researchStage parse now r1.2
  let r3 := raidStage parse r2.2
  let s4 := remainingSlides parse r3.2
  let s5 := upcomingStage parse now cu.2
  let slides := r1.1 ++ r2.1 ++ r3.1 ++ s4 ++ s5
  if slides.isEmpty then [fallbackSlide] else slides

/-- The outcome of one `requests.get` of the feed: a JSON list on success, or
any exception.  `fetch_events` (`main.py` lines 33-40) catches the exception
and returns `[]`. -/
inductive FetchOutcome
  | success (events : List RawEvent)
  | failure
deriving DecidableEq

/-- `fetch_events` (`main.py` lines 33-40): the fetched list, or `[]` on any
transport error (logged, not raised). -/
def fetch_events : FetchOutcome → List RawEvent
  | .success evs => evs
  | .failure => []

/-- The process-wide mutable state: `events_cache["events"]`,
`events_cache["last_updated"]`, and `_refresh_in_progress`. -/
structure CacheState where
  events : List RawEvent
  last_updated : Option String
  refresh_in_progress : Bool
deriving DecidableEq

/-- `refresh_cache` (`main.py` lines 43-58) under a given fetch outcome and a
timestamp string `t` for `datetime.now(utc).isoformat()`: return `False`
at once when a refresh is in progress; otherwise replace the cached list with
the fetch result (`fetch_events() or []`), stamp `last_updated`, and clear
the busy flag (`finally`) before returning `True`. -/
def refresh_cache (fo : FetchOutcome) (t : String) (s : CacheState) :
    Bool × CacheState :=
  if s.refresh_in_progress then (false, s)
  else
    let data := fetch_events fo
    (true, { events := data, last_updated := some t, refresh_in_progress := false })

/-- The `/api/refresh` response dict. -/
structure RefreshResponse where
  status : String
  in_progress : Bool
  last_updated : Option String
deriving DecidableEq

/-- `refresh_now` (`main.py` lines 274-281): run `refresh_cache` and report
`"ok"` or `"already_running"` plus the state read after the call. -/
def refresh_now (fo : FetchOutcome) (t : String) (s : CacheState) :
    RefreshResponse × CacheState :=
  let r := refresh_cache fo t s
  ({ status := if r.1 then "ok" else "already_running",
     in_progress := r.2.refresh_in_progress,
     last_updated := r.2.last_updated }, r.2)

/-- `get_events` (`main.py` lines 112-271): read the cache, synchronously
refresh once when it is empty, then compose slides from whatever the cache
holds afterwards. -/
def get_events (parse : String → Option PyDateTime) (fo : FetchOutcome) (t : String)
    (now : Int) (sunday : Bool) (s : CacheState) : List Slide × CacheState :=
  if s.events.isEmpty then
    let s1 := (refresh_cache fo t s).2
    (composeSlides parse s1.events now sunday, s1)
  else (composeSlides parse s.events now sunday, s)

/-- The branch condition under which the classification loop puts an event in
`current_events`: both endpoints normalize, the heading is not excluded, and
`start_dt <= now <= end_dt` (compared as instants). -/
def isCurrentAt (parse : String → Option PyDateTime) (now : Int) (e : RawEvent) : Prop :=
  ∃ sd ed, _parse_dt_utc parse e.start = some sd ∧ _parse_dt_utc parse e.«end» = some ed ∧
    _is_excluded_heading e.heading = false ∧ instant sd ≤ now ∧ now ≤ instant ed

/-- The branch condition under which the classification loop puts an event in
`upcoming_events`: both endpoints normalize, the heading is not excluded, and
`start_dt > now and start_dt <= upcoming_cutoff`. -/
def isUpcomingAt (parse : String → Option PyDateTime) (now : Int) (e : RawEvent) : Prop :=
  ∃ sd ed, _parse_dt_utc parse e.start = some sd ∧ _parse_dt_utc parse e.«end» = some ed ∧
    _is_excluded_heading e.heading = false ∧ now < instant sd ∧
    instant sd ≤ upcomingCutoff now

/-- All events stored in a groups map (concatenation of its value lists). -/
def groupsEvents (g : Groups) : List RawEvent :=
  (g.map Prod.snd).flatten

/-- Digit-string reading for the demo parser below. -/
def digitsToNat (ds : List Char) : Option Nat :=
  if ds ≠ [] ∧ ds.all Char.isDigit then
    some (ds.foldl (fun a c => a * 10 + (c.toNat - 48)) 0)
  else none

/-- A concrete stand-in for `dateutil.parser.parse` used to evaluate the model
on closed inputs: a finite map from a few date strings to datetimes (minutes
since the epoch; `NV` parses to a zone-less value; `T<n>` parses to the UTC
instant `n`). -/
def demoParse : String → Option PyDateTime := fun s =>
  if s = "2024-06-01T10:00:00Z" then some { wall := 19875 * 1440 + 600, tz := some 0 }
  else if s = "2024-06-01T13:00:00Z" then some { wall := 19875 * 1440 + 780, tz := some 0 }
  else if s = "S1" then some { wall := 600, tz := some 0 }
  else if s = "E1" then some { wall := 1200, tz := some 0 }
  else if s = "NV" then some { wall := 500, tz := none }
  else
    match s.data with
    | 'T' :: ds =>
      match digitsToNat ds with
      | some n => some { wall := (n : Int), tz := some 0 }
      | none => none
    | _ => none

/-- A concrete event that is current at `demoNow` under `demoParse`
(the spec's worked Community Day example). -/
def sampleEvent : RawEvent :=
  { name := some "Community Day", heading := some "Event",
    start := some "2024-06-01T10:00:00Z", «end» := some "2024-06-01T13:00:00Z",
    image := none, link := none }

/-- The instant 2024-06-01T11:00:00Z in model minutes. -/
def demoNow : Int := 19875 * 1440 + 660

/-- A concrete event whose heading normalizes (whitespace collapse plus case
fold) to the excluded category. -/
def excludedEvent : RawEvent :=
  { name := some "GBL Season", heading := some "  Go   Battle  LEAGUE ",
    start := some "2024-06-01T10:00:00Z", «end» := some "2024-06-01T13:00:00Z",
    image := none, link := none }

/-- Fifty-one distinct current events all headed `"Research"`, used to probe
the research slide's (absent) item cap. -/
def c5RawEvents : List RawEvent :=
  (List.range 51).map (fun i =>
    { name := some (toString i), heading := some "Research",
      start := some "S1", «end» := some ("T" ++ toString (1000 + i)),
      image := none, link := none })

/-- A concrete event for the `"Research"` group. -/
def researchEventA : RawEvent :=
  { name := some "Quest A", heading := some "Research",
    start := some "S1", «end» := some "E1", image := none, link := none }

/-- A concrete event for the `"Timed Research"` group. -/
def researchEventB : RawEvent :=
  { name := some "Quest B", heading := some "Timed Research",
    start := some "S1", «end» := some "E1", image := none, link := none }

/-- A concrete two-group current map for exercising the research merge. -/
def researchDemoGroups : Groups :=
  [("Research", [researchEventA]), ("Timed Research", [researchEventB])]

/-- A cache state with a refresh in flight. -/
def cacheBusy : CacheState :=
  { events := [], last_updated := none, refresh_in_progress := true }

/-- A quiescent cache state holding one previously fetched event. -/
def cacheIdle : CacheState :=
  { events := [sampleEvent], last_updated := none, refresh_in_progress := false }

/-- The initial cache state of the process: empty list, no timestamp. -/
def cacheEmpty : CacheState :=
  { events := [], last_updated := none, refresh_in_progress := false }

/-- Auxiliary: with an empty raw list and a non-Sunday local day the pipeline
emits exactly the fallback slide. -/
theorem composeSlides_nil_not_sunday (parse : String → Option PyDateTime) (now : Int) :
    composeSlides parse [] now false = [fallbackSlide] := rfl

/-- C1: the claim as stated is false — when the fetch fails, `refresh_cache`
stores the `[]` returned by `fetch_events` over the previously cached
non-empty list instead of leaving the cache untouched. -/
theorem c1_counterexample_cache_not_preserved :
    (refresh_cache FetchOutcome.failure "2025-06-01T00:00:00+00:00" cacheIdle).2.events ≠
      cacheIdle.events := by decide

/-- C1 (amended): for every `refresh()` call in which the fetch fails and no
refresh is already in progress, the cached event list after the call is the
empty list and `last_updated` is overwritten — the previous cache contents
are discarded, not kept. -/
theorem c1_fetch_failure_empties_cache (t : String) (s : CacheState)
    (h : s.refresh_in_progress = false) :
    (refresh_cache FetchOutcome.failure t s).2.events = [] ∧
    (refresh_cache FetchOutcome.failure t s).2.last_updated = some t := by
  simp [refresh_cache, h, fetch_events]

/-- C1 witness: the amended statement evaluated on a concrete idle cache
holding one event. -/
theorem c1_fetch_failure_empties_cache_witness :
    (refresh_cache FetchOutcome.failure "2025-06-01T00:00:00+00:00" cacheIdle).2.events = [] ∧
    (refresh_cache FetchOutcome.failure "2025-06-01T00:00:00+00:00" cacheIdle).2.last_updated =
      some "2025-06-01T00:00:00+00:00" :=
  c1_fetch_failure_empties_cache "2025-06-01T00:00:00+00:00" cacheIdle rfl

/-- C7: `_parse_dt_utc` returns no value (not an error) on absent, empty, or
unparseable input; a string parsed without an explicit zone is interpreted as
UTC with its wall clock unchanged; and every returned timestamp carries the
UTC zone, so all downstream comparisons are between UTC-zoned values. -/
theorem c7_parse_dt_utc_policy (parse : String → Option PyDateTime) :
    (∀ s : Option String, (s = none ∨ s = some "") → _parse_dt_utc parse s = none) ∧
    (∀ str : String, parse str = none → _parse_dt_utc parse (some str) = none) ∧
    (∀ (str : String) (dt : PyDateTime), str ≠ "" → parse str = some dt → dt.tz = none →
      _parse_dt_utc parse (some str) = some { wall := dt.wall, tz := some 0 }) ∧
    (∀ (s : Option String) (dt : PyDateTime), _parse_dt_utc parse s = some dt →
      dt.tz = some 0) := by
  refine ⟨?_, ?_, ?_, ?_⟩
  · rintro s (rfl | rfl) <;> rfl
  · intro str h
    by_cases hs : str = "" <;> simp [_parse_dt_utc, hs, h]
  · intro str dt hs hp ht
    simp [_parse_dt_utc, hs, hp, ht, astimezoneUtc, instant]
  · intro s dt h
    cases s with
    | none => exact absurd h (by simp [_parse_dt_utc])
    | some str =>
      by_cases hs : str = ""
      · rw [hs] at h; exact absurd h (by simp [_parse_dt_utc])
      · cases hp : parse str with
        | none => rw [_parse_dt_utc] at h; simp [hs, hp] at h
        | some d =>
          rw [_parse_dt_utc] at h
          simp only [hs, if_false, hp] at h
          have h2 : astimezoneUtc (if d.tz = none then { d with tz := some 0 } else d) = dt := by
            by_cases hd : d.tz = none <;> simpa [hd] using h
          rw [← h2]
          rfl

/-- C7 witness: the policy evaluated on the concrete demo parser, including a
zone-less parse result. -/
theorem c7_parse_dt_utc_policy_witness :
    _parse_dt_utc demoParse (some "") = none ∧
    _parse_dt_utc demoParse (some "not a date") = none ∧
    _parse_dt_utc demoParse (some "NV") = some { wall := 500, tz := some 0 } ∧
    PyDateTime.tz { wall := 500, tz := some 0 } = some 0 :=
  ⟨(c7_parse_dt_utc_policy demoParse).1 (some "") (Or.inr rfl),
   (c7_parse_dt_utc_policy demoParse).2.1 "not a date" rfl,
   (c7_parse_dt_utc_policy demoParse).2.2.1 "NV" { wall := 500, tz := none }
     (by decide) rfl rfl,
   (c7_parse_dt_utc_policy demoParse).2.2.2 (some "NV") { wall := 500, tz := some 0 }
     (by decide)⟩

/-- C8: when a refresh is already in progress, `refresh()` returns the
not-started signal (surfaced by the endpoint as status `"already_running"`)
without touching the state and with a result independent of the fetch
outcome (no fetch is performed); and a refresh that actually runs leaves the
busy flag cleared on return for every fetch outcome, failure included. -/
theorem c8_busy_guard (fo fo' : FetchOutcome) (t t' : String) (s : CacheState) :
    (s.refresh_in_progress = true →
      refresh_cache fo t s = (false, s) ∧
      (refresh_now fo t s).1.status = "already_running" ∧
      refresh_cache fo t s = refresh_cache fo' t' s) ∧
    (s.refresh_in_progress = false →
      (refresh_cache fo t s).2.refresh_in_progress = false) := by
  constructor
  · intro h
    refine ⟨by simp [refresh_cache, h], by simp [refresh_now, refresh_cache, h], ?_⟩
    simp [refresh_cache, h]
  · intro h
    simp [refresh_cache, h]

/-- C8 witness: the guard evaluated on a concrete busy state (with two
different fetch outcomes) and on a concrete idle state with a failing
fetch. -/
theorem c8_busy_guard_witness :
    (refresh_cache FetchOutcome.failure "T" cacheBusy = (false, cacheBusy) ∧
     (refresh_now FetchOutcome.failure "T" cacheBusy).1.status = "already_running" ∧
     refresh_cache FetchOutcome.failure "T" cacheBusy =
       refresh_cache (FetchOutcome.success [sampleEvent]) "U" cacheBusy) ∧
    (refresh_cache FetchOutcome.failure "T" cacheIdle).2.refresh_in_progress = false :=
  ⟨(c8_busy_guard FetchOutcome.failure (FetchOutcome.success [sampleEvent])
      "T" "U" cacheBusy).1 rfl,
   (c8_busy_guard FetchOutcome.failure FetchOutcome.failure "T" "T" cacheIdle).2 rfl⟩

/-- C10: whenever no refresh is in progress, `refresh_cache` returns `True`
and the endpoint reports status `"ok"` for every fetch outcome — a failed
fetch is indistinguishable from a successful one in the returned status —
and `last_updated` is stamped on every such attempt. -/
theorem c10_refresh_status_ok (fo : FetchOutcome) (t : String) (s : CacheState)
    (h : s.refresh_in_progress = false) :
    (refresh_cache fo t s).1 = true ∧
    (refresh_now fo t s).1.status = "ok" ∧
    (refresh_now fo t s).1.last_updated = some t ∧
    ∀ l : List RawEvent,
      (refresh_now FetchOutcome.failure t s).1.status =
        (refresh_now (FetchOutcome.success l) t s).1.status := by
  refine ⟨by simp [refresh_cache, h], by simp [refresh_now, refresh_cache, h],
    by simp [refresh_now, refresh_cache, h], fun l => ?_⟩
  simp [refresh_now, refresh_cache, h]

/-- C10 witness: the status behaviour evaluated on a concrete idle state
under a failing fetch. -/
theorem c10_refresh_status_ok_witness :
    (refresh_cache FetchOutcome.failure "T" cacheIdle).1 = true ∧
    (refresh_now FetchOutcome.failure "T" cacheIdle).1.status = "ok" ∧
    (refresh_now FetchOutcome.failure "T" cacheIdle).1.last_updated = some "T" ∧
    ∀ l : List RawEvent,
      (refresh_now FetchOutcome.failure "T" cacheIdle).1.status =
        (refresh_now (FetchOutcome.success l) "T" cacheIdle).1.status :=
  c10_refresh_status_ok FetchOutcome.failure "T" cacheIdle rfl

/-- C9: with a non-empty cached list, the read operation neither mutates the
cache state nor depends on anything but the cached list and `now`; two
successive calls with the same `now` (and any fetch outcomes, which are never
consulted) return identical slide output. -/
theorem c9_read_deterministic (parse : String → Option PyDateTime)
    (fo fo' : FetchOutcome) (t t' : String) (now : Int) (sunday : Bool)
    (s : CacheState) (h : s.events ≠ []) :
    (get_events parse fo t now sunday s).2 = s ∧
    (get_events parse fo' t' now sunday ((get_events parse fo t now sunday s).2)).1 =
      (get_events parse fo t now sunday s).1 := by
  have he : s.events.isEmpty = false := by
    cases hs : s.events with
    | nil => exact absurd hs h
    | cons a l => rfl
  exact ⟨by simp [get_events, he], by simp [get_events, he]⟩

/-- C9 witness: determinism of the read operation evaluated on a concrete
non-empty cache. -/
theorem c9_read_deterministic_witness :
    (get_events demoParse FetchOutcome.failure "T" demoNow false cacheIdle).2 = cacheIdle ∧
    (get_events demoParse (FetchOutcome.success []) "U" demoNow false
        ((get_events demoParse FetchOutcome.failure "T" demoNow false cacheIdle).2)).1 =
      (get_events demoParse FetchOutcome.failure "T" demoNow false cacheIdle).1 :=
  c9_read_deterministic demoParse FetchOutcome.failure (FetchOutcome.success [])
    "T" "U" demoNow false cacheIdle (by decide)

/-- C4: the claim as stated is false — on a Sunday the synthetic Trade Day
item makes the read operation emit a single `"Current Events"` slide even
when the raw event list is empty, not the `"No current events"` fallback. -/
theorem c4_counterexample_sunday :
    (get_events demoParse FetchOutcome.failure "T" demoNow true cacheEmpty).1.map
        Slide.title = ["Current Events"] ∧
    (["Current Events"] : List String) ≠ ["No current events"] := by decide

/-- C4 (amended): whenever the local day is not Sunday, an empty raw event
list (empty cache whose one refresh attempt fetches nothing) produces exactly
one slide, and that slide's title is `"No current events"`. -/
theorem c4_empty_list_fallback (parse : String → Option PyDateTime)
    (fo : FetchOutcome) (t : String) (now : Int) (s : CacheState)
    (h1 : s.events = []) (h2 : fetch_events fo = []) :
    (get_events parse fo t now false s).1 = [fallbackSlide] ∧
    fallbackSlide.title = "No current events" := by
  have he : s.events.isEmpty = true := by rw [h1]; rfl
  refine ⟨?_, rfl⟩
  by_cases hb : s.refresh_in_progress
  · simp [get_events, he, refresh_cache, hb, h1, composeSlides_nil_not_sunday]
  · simp [get_events, he, refresh_cache, hb, h2, composeSlides_nil_not_sunday]

/-- C4 witness: the amended statement evaluated on the concrete empty cache
with a failing fetch. -/
theorem c4_empty_list_fallback_witness :
    (get_events demoParse FetchOutcome.failure "T" demoNow false cacheEmpty).1 =
      [fallbackSlide] ∧
    fallbackSlide.title = "No current events" :=
  c4_empty_list_fallback demoParse FetchOutcome.failure "T" demoNow cacheEmpty rfl rfl

/-- Auxiliary: an event with an unparseable start is never current. -/
theorem not_isCurrentAt_of_start_none {parse : String → Option PyDateTime} {now : Int}
    {e : RawEvent} (h : _parse_dt_utc parse e.start = none) : ¬ isCurrentAt parse now e := by
  rintro ⟨sd, ed, hs, _⟩
  rw [h] at hs
  exact Option.noConfusion hs

/-- Auxiliary: an event with an unparseable end is never current. -/
theorem not_isCurrentAt_of_end_none {parse : String → Option PyDateTime} {now : Int}
    {e : RawEvent} (h : _parse_dt_utc parse e.«end» = none) : ¬ isCurrentAt parse now e := by
  rintro ⟨sd, ed, _, he, _⟩
  rw [h] at he
  exact Option.noConfusion he

/-- Auxiliary: an event with an unparseable start is never upcoming. -/
theorem not_isUpcomingAt_of_start_none {parse : String → Option PyDateTime} {now : Int}
    {e : RawEvent} (h : _parse_dt_utc parse e.start = none) : ¬ isUpcomingAt parse now e := by
  rintro ⟨sd, ed, hs, _⟩
  rw [h] at hs
  exact Option.noConfusion hs

/-- Auxiliary: an event with an unparseable end is never upcoming. -/
theorem not_isUpcomingAt_of_end_none {parse : String → Option PyDateTime} {now : Int}
    {e : RawEvent} (h : _parse_dt_utc parse e.«end» = none) : ¬ isUpcomingAt parse now e := by
  rintro ⟨sd, ed, _, he, _⟩
  rw [h] at he
  exact Option.noConfusion he

/-- Auxiliary: no event satisfies both classification conditions — the current
branch needs `start ≤ now` while the upcoming branch needs `start > now`. -/
theorem not_isCurrentAt_and_isUpcomingAt {parse : String → Option PyDateTime} {now : Int}
    {e : RawEvent} : ¬ (isCurrentAt parse now e ∧ isUpcomingAt parse now e) := by
  rintro ⟨⟨sd, ed, hs, he, hx, h1, h2⟩, ⟨sd', ed', hs', he', hx', h3, h4⟩⟩
  rw [hs] at hs'
  cases hs'
  exact absurd h1 (not_le.mpr h3)

/-- Auxiliary: a classification step on an event meeting the current-branch
condition prepends it to the current list. -/
theorem classifyEvents_cons_current {parse : String → Option PyDateTime} {now : Int}
    {a : RawEvent} (rest : List RawEvent) (h : isCurrentAt parse now a) :
    classifyEvents parse now (a :: rest) =
      (a :: (classifyEvents parse now rest).1, (classifyEvents parse now rest).2) := by
  obtain ⟨sd, ed, hs, he, hx, h5, h6⟩ := h
  simp [classifyEvents, hs, he, hx, h5, h6]

/-- Auxiliary: a classification step on an event meeting the upcoming-branch
condition prepends it to the upcoming list. -/
theorem classifyEvents_cons_upcoming {parse : String → Option PyDateTime} {now : Int}
    {a : RawEvent} (rest : List RawEvent) (hn : ¬ isCurrentAt parse now a)
    (h : isUpcomingAt parse now a) :
    classifyEvents parse now (a :: rest) =
      ((classifyEvents parse now rest).1, a :: (classifyEvents parse now rest).2) := by
  obtain ⟨sd, ed, hs, he, hx, h5, h6⟩ := h
  have hnc : ¬ (instant sd ≤ now ∧ now ≤ instant ed) := by
    intro hc
    exact hn ⟨sd, ed, hs, he, hx, hc.1, hc.2⟩
  simp [classifyEvents, hs, he, hx, hnc, h5, h6]

/-- Auxiliary: a classification step on an event meeting neither branch
condition leaves both lists unchanged. -/
theorem classifyEvents_cons_skip {parse : String → Option PyDateTime} {now : Int}
    {a : RawEvent} (rest : List RawEvent) (hnc : ¬ isCurrentAt parse now a)
    (hnu : ¬ isUpcomingAt parse now a) :
    classifyEvents parse now (a :: rest) = classifyEvents parse now rest := by
  rcases h1 : _parse_dt_utc parse a.start with _ | sd <;>
    rcases h2 : _parse_dt_utc parse a.«end» with _ | ed <;>
      simp only [classifyEvents, h1, h2]
  by_cases hx : _is_excluded_heading a.heading
  · simp [hx]
  · have hxf : _is_excluded_heading a.heading = false := by
      revert hx
      cases _is_excluded_heading a.heading <;> simp
    have hc : ¬ (instant sd ≤ now ∧ now ≤ instant ed) := by
      intro hc
      exact hnc ⟨sd, ed, h1, h2, hxf, hc.1, hc.2⟩
    have hu : ¬ (now < instant sd ∧ instant sd ≤ upcomingCutoff now) := by
      intro hu
      exact hnu ⟨sd, ed, h1, h2, hxf, hu.1, hu.2⟩
    simp [hxf, hc, hu]

/-- Auxiliary: membership in the current list of the classifier. -/
theorem mem_classify_current {parse : String → Option PyDateTime} {now : Int} :
    ∀ {raw : List RawEvent} {e : RawEvent},
      e ∈ (classifyEvents parse now raw).1 ↔ e ∈ raw ∧ isCurrentAt parse now e := by
  intro raw
  induction raw with
  | nil => simp [classifyEvents]
  | cons a rest ih =>
    intro e
    by_cases hc : isCurrentAt parse now a
    · rw [classifyEvents_cons_current rest hc]
      simp only [List.mem_cons]
      constructor
      · rintro (rfl | he)
        · exact ⟨Or.inl rfl, hc⟩
        · obtain ⟨h1, h2⟩ := ih.mp he
          exact ⟨Or.inr h1, h2⟩
      · rintro ⟨rfl | he, hcond⟩
        · exact Or.inl rfl
        · exact Or.inr (ih.mpr ⟨he, hcond⟩)
    · by_cases hu : isUpcomingAt parse now a
      · rw [classifyEvents_cons_upcoming rest hc hu]
        simp only [List.mem_cons]
        constructor
        · intro he
          obtain ⟨h1, h2⟩ := ih.mp he
          exact ⟨Or.inr h1, h2⟩
        · rintro ⟨rfl | he, hcond⟩
          · exact absurd hcond hc
          · exact ih.mpr ⟨he, hcond⟩
      · rw [classifyEvents_cons_skip rest hc hu]
        simp only [List.mem_cons]
        constructor
        · intro he
          obtain ⟨h1, h2⟩ := ih.mp he
          exact ⟨Or.inr h1, h2⟩
        · rintro ⟨rfl | he, hcond⟩
          · exact absurd hcond hc
          · exact ih.mpr ⟨he, hcond⟩

/-- Auxiliary: membership in the upcoming list of the classifier. -/
theorem mem_classify_upcoming {parse : String → Option PyDateTime} {now : Int} :
    ∀ {raw : List RawEvent} {e : RawEvent},
      e ∈ (classifyEvents parse now raw).2 ↔ e ∈ raw ∧ isUpcomingAt parse now e := by
  intro raw
  induction raw with
  | nil => simp [classifyEvents]
  | cons a rest ih =>
    intro e
    by_cases hc : isCurrentAt parse now a
    · rw [classifyEvents_cons_current rest hc]
      simp only [List.mem_cons]
      constructor
      · intro he
        obtain ⟨h1, h2⟩ := ih.mp he
        exact ⟨Or.inr h1, h2⟩
      · rintro ⟨rfl | he, hcond⟩
        · exact absurd ⟨hc, hcond⟩ not_isCurrentAt_and_isUpcomingAt
        · exact ih.mpr ⟨he, hcond⟩
    · by_cases hu : isUpcomingAt parse now a
      · rw [classifyEvents_cons_upcoming rest hc hu]
        simp only [List.mem_cons]
        constructor
        · rintro (rfl | he)
          · exact ⟨Or.inl rfl, hu⟩
          · obtain ⟨h1, h2⟩ := ih.mp he
            exact ⟨Or.inr h1, h2⟩
        · rintro ⟨rfl | he, hcond⟩
          · exact Or.inl rfl
          · exact Or.inr (ih.mpr ⟨he, hcond⟩)
      · rw [classifyEvents_cons_skip rest hc hu]
        simp only [List.mem_cons]
        constructor
        · intro he
          obtain ⟨h1, h2⟩ := ih.mp he
          exact ⟨Or.inr h1, h2⟩
        · rintro ⟨rfl | he, hcond⟩
          · exact absurd hcond hu
          · exact ih.mpr ⟨he, hcond⟩

/-- C2: an event of the raw list is classified current iff both endpoints
normalize, its category is not excluded and `start ≤ now ≤ end`; upcoming iff
both endpoints normalize, its category is not excluded, `start > now` and
`start ≤ now + 30 days`; never both; and an event with an unparseable
endpoint appears in neither list. -/
theorem c2_classifier (parse : String → Option PyDateTime) (now : Int)
    (raw : List RawEvent) (e : RawEvent) (he : e ∈ raw) :
    (e ∈ (classifyEvents parse now raw).1 ↔ isCurrentAt parse now e) ∧
    (e ∈ (classifyEvents parse now raw).2 ↔ isUpcomingAt parse now e) ∧
    ¬ (e ∈ (classifyEvents parse now raw).1 ∧ e ∈ (classifyEvents parse now raw).2) ∧
    ((_parse_dt_utc parse e.start = none ∨ _parse_dt_utc parse e.«end» = none) →
      e ∉ (classifyEvents parse now raw).1 ∧ e ∉ (classifyEvents parse now raw).2) := by
  refine ⟨⟨fun h => (mem_classify_current.mp h).2, fun h => mem_classify_current.mpr ⟨he, h⟩⟩,
    ⟨fun h => (mem_classify_upcoming.mp h).2, fun h => mem_classify_upcoming.mpr ⟨he, h⟩⟩,
    ?_, ?_⟩
  · rintro ⟨h1, h2⟩
    exact not_isCurrentAt_and_isUpcomingAt
      ⟨(mem_classify_current.mp h1).2, (mem_classify_upcoming.mp h2).2⟩
  · rintro (hn | hn)
    · exact ⟨fun h => not_isCurrentAt_of_start_none hn (mem_classify_current.mp h).2,
        fun h => not_isUpcomingAt_of_start_none hn (mem_classify_upcoming.mp h).2⟩
    · exact ⟨fun h => not_isCurrentAt_of_end_none hn (mem_classify_current.mp h).2,
        fun h => not_isUpcomingAt_of_end_none hn (mem_classify_upcoming.mp h).2⟩

/-- C2 witness: the classifier characterization evaluated on the spec's
worked Community Day example at 2024-06-01T11:00Z. -/
theorem c2_classifier_witness :
    sampleEvent ∈ [sampleEvent] ∧
    ((sampleEvent ∈ (classifyEvents demoParse demoNow [sampleEvent]).1 ↔
        isCurrentAt demoParse demoNow sampleEvent) ∧
     (sampleEvent ∈ (classifyEvents demoParse demoNow [sampleEvent]).2 ↔
        isUpcomingAt demoParse demoNow sampleEvent) ∧
     ¬ (sampleEvent ∈ (classifyEvents demoParse demoNow [sampleEvent]).1 ∧
        sampleEvent ∈ (classifyEvents demoParse demoNow [sampleEvent]).2) ∧
     ((_parse_dt_utc demoParse sampleEvent.start = none ∨
         _parse_dt_utc demoParse sampleEvent.«end» = none) →
       sampleEvent ∉ (classifyEvents demoParse demoNow [sampleEvent]).1 ∧
       sampleEvent ∉ (classifyEvents demoParse demoNow [sampleEvent]).2)) :=
  ⟨by decide, c2_classifier demoParse demoNow [sampleEvent] sampleEvent (by decide)⟩

/-- Auxiliary: `lexLe3` is total. -/
theorem lexLe3_total (x y : Int × String × String) : lexLe3 x y ∨ lexLe3 y x := by
  unfold lexLe3
  rcases lt_trichotomy x.1 y.1 with h | h | h
  · exact Or.inl (Or.inl h)
  · rcases lt_trichotomy x.2.1 y.2.1 with h2 | h2 | h2
    · exact Or.inl (Or.inr ⟨h, Or.inl h2⟩)
    · rcases le_total x.2.2 y.2.2 with h3 | h3
      · exact Or.inl (Or.inr ⟨h, Or.inr ⟨h2, h3⟩⟩)
      · exact Or.inr (Or.inr ⟨h.symm, Or.inr ⟨h2.symm, h3⟩⟩)
    · exact Or.inr (Or.inr ⟨h.symm, Or.inl h2⟩)
  · exact Or.inr (Or.inl h)

/-- Auxiliary: `lexLe3` is transitive. -/
theorem lexLe3_trans (x y z : Int × String × String) :
    lexLe3 x y → lexLe3 y z → lexLe3 x z := by
  unfold lexLe3
  rintro (h1 | ⟨h1, h2⟩) (h3 | ⟨h3, h4⟩)
  · exact Or.inl (h1.trans h3)
  · exact Or.inl (lt_of_lt_of_eq h1 h3)
  · exact Or.inl (lt_of_eq_of_lt h1 h3)
  · refine Or.inr ⟨h1.trans h3, ?_⟩
    rcases h2 with h2 | ⟨h2a, h2b⟩ <;> rcases h4 with h4 | ⟨h4a, h4b⟩
    · exact Or.inl (h2.trans h4)
    · exact Or.inl (lt_of_lt_of_eq h2 h4a)
    · exact Or.inl (lt_of_eq_of_lt h2a h4)
    · exact Or.inr ⟨h2a.trans h4a, h2b.trans h4b⟩

/-- Auxiliary: key membership characterizes `hasKey`. -/
theorem hasKey_eq_true_iff {g : Groups} {k : String} :
    hasKey g k = true ↔ k ∈ g.map Prod.fst := by
  constructor
  · intro h
    obtain ⟨p, hp, he⟩ := List.any_eq_true.mp h
    exact List.mem_map.mpr ⟨p, hp, (beq_iff_eq.mp he)⟩
  · intro h
    obtain ⟨p, hp, he⟩ := List.mem_map.mp h
    exact List.any_eq_true.mpr ⟨p, hp, beq_iff_eq.mpr he⟩

/-- Auxiliary: removing a key keeps a sublist of the keys. -/
theorem keys_removeKey_sublist (g : Groups) (k : String) :
    List.Sublist ((removeKey g k).map Prod.fst) (g.map Prod.fst) := by
  induction g with
  | nil => exact List.Sublist.refl _
  | cons p rest ih =>
    obtain ⟨k1, l⟩ := p
    by_cases h : k1 = k
    · simp only [removeKey, if_pos h, List.map_cons]
      exact List.sublist_cons_self _ _
    · simp only [removeKey, if_neg h, List.map_cons]
      exact ih.cons₂ _

/-- Auxiliary: removing a key preserves distinctness of the keys. -/
theorem nodup_keys_removeKey {g : Groups} (k : String)
    (h : (g.map Prod.fst).Nodup) : ((removeKey g k).map Prod.fst).Nodup :=
  (keys_removeKey_sublist g k).nodup h

/-- Auxiliary: with distinct keys, the removed key is gone. -/
theorem not_mem_keys_removeKey_self {g : Groups} {k : String}
    (h : (g.map Prod.fst).Nodup) : k ∉ (removeKey g k).map Prod.fst := by
  induction g with
  | nil => simp [removeKey]
  | cons p rest ih =>
    obtain ⟨k1, l⟩ := p
    rw [List.map_cons, List.nodup_cons] at h
    by_cases he : k1 = k
    · simp only [removeKey, if_pos he]
      rw [← he]
      exact h.1
    · simp only [removeKey, if_neg he, List.map_cons]
      intro hmem
      rcases List.mem_cons.mp hmem with h2 | h2
      · exact he h2.symm
      · exact ih h.2 h2

/-- Auxiliary: a key absent from a map is still absent after removing another
key. -/
theorem not_mem_keys_removeKey {g : Groups} {k k' : String}
    (h : k ∉ g.map Prod.fst) : k ∉ (removeKey g k').map Prod.fst :=
  fun hmem => h ((keys_removeKey_sublist g k').mem hmem)

/-- Auxiliary: every pair of the sorted combined research list carries one of
the two source labels. -/
theorem researchCombinedSorted_label {parse : String → Option PyDateTime} {now : Int}
    {research timed : List RawEvent} {p : String × RawEvent}
    (hp : p ∈ researchCombinedSorted parse now research timed) :
    p.1 = "Research" ∨ p.1 = "Timed Research" := by
  rw [researchCombinedSorted, List.mem_insertionSort] at hp
  rcases List.mem_append.mp hp with h | h <;>
    obtain ⟨e, _, he⟩ := List.mem_map.mp h
  · exact Or.inl (congrArg Prod.fst he).symm
  · exact Or.inr (congrArg Prod.fst he).symm

set_option maxRecDepth 200000 in
/-- C5: the claim as stated is false — the research slide advertises
`maxItems` 50 but never truncates its item list: 51 current Research events
produce a single "Current research" slide holding all 51 items. -/
theorem c5_counterexample_no_item_cap :
    (composeSlides demoParse c5RawEvents 700 false).map
        (fun sl => (sl.title, (sl.items.getD []).length)) = [("Current research", 51)] ∧
    ¬ (51 ≤ 50) := by
  constructor
  · decide
  · decide

/-- C5 (amended): whenever the current groups `"Research"` or
`"Timed Research"` is non-empty, the composer removes both groups and emits
exactly one slide titled `"Current research"` carrying a `maxItems` bound of
50, whose item list contains one item per combined event without truncation,
each item's subtitle equal to its source label, with the combined list sorted
ascending by (normalized end time, source label, event name). -/
theorem c5_research_merge (parse : String → Option PyDateTime) (now : Int) (g : Groups)
    (hnd : (g.map Prod.fst).Nodup)
    (hne : lookupGroup g "Research" ≠ [] ∨
      lookupGroup (removeKey g "Research") "Timed Research" ≠ []) :
    (researchStage parse now g).1 =
      [{ title := "Current research", subtitle := "Research + Timed Research",
         maxItems := some 50,
         items := some ((researchCombinedSorted parse now (lookupGroup g "Research")
             (lookupGroup (removeKey g "Research") "Timed Research")).map
           (fun p => _event_to_list_item parse p.2 (some p.1))),
         url := leekUrl }] ∧
    (researchStage parse now g).2 = removeKey (removeKey g "Research") "Timed Research" ∧
    hasKey (researchStage parse now g).2 "Research" = false ∧
    hasKey (researchStage parse now g).2 "Timed Research" = false ∧
    (∀ sl ∈ (researchStage parse now g).1,
      (sl.items.getD []).length =
        (lookupGroup g "Research").length +
          (lookupGroup (removeKey g "Research") "Timed Research").length) ∧
    (∀ p ∈ researchCombinedSorted parse now (lookupGroup g "Research")
        (lookupGroup (removeKey g "Research") "Timed Research"),
      (_event_to_list_item parse p.2 (some p.1)).subtitle = p.1 ∧
      (p.1 = "Research" ∨ p.1 = "Timed Research")) ∧
    List.Sorted
      (fun p q => lexLe3 (researchKey parse now p) (researchKey parse now q))
      (researchCombinedSorted parse now (lookupGroup g "Research")
        (lookupGroup (removeKey g "Research") "Timed Research")) := by
  have hcond : ((lookupGroup g "Research").isEmpty &&
      (lookupGroup (removeKey g "Research") "Timed Research").isEmpty) = false := by
    rcases hne with h | h
    · rw [Bool.and_eq_false_iff]
      exact Or.inl (by simpa [List.isEmpty_iff] using h)
    · rw [Bool.and_eq_false_iff]
      exact Or.inr (by simpa [List.isEmpty_iff] using h)
  have hstage : researchStage parse now g =
      ([{ title := "Current research", subtitle := "Research + Timed Research",
          maxItems := some 50,
          items := some ((researchCombinedSorted parse now (lookupGroup g "Research")
              (lookupGroup (removeKey g "Research") "Timed Research")).map
            (fun p => _event_to_list_item parse p.2 (some p.1))),
          url := leekUrl }], removeKey (removeKey g "Research") "Timed Research") := by
    rw [researchStage]
    simp only [popGroup, hcond, Bool.false_eq_true, if_false]
  refine ⟨by rw [hstage], by rw [hstage], ?_, ?_, ?_, ?_, ?_⟩
  · rw [hstage]
    have := @not_mem_keys_removeKey (removeKey g "Research") "Research" "Timed Research"
      (@not_mem_keys_removeKey_self g "Research" hnd)
    revert this
    cases hb : hasKey (removeKey (removeKey g "Research") "Timed Research") "Research"
    · intro _; rfl
    · intro hthis; exact absurd (hasKey_eq_true_iff.mp hb) hthis
  · rw [hstage]
    have hnd2 : ((removeKey g "Research").map Prod.fst).Nodup :=
      nodup_keys_removeKey "Research" hnd
    have := @not_mem_keys_removeKey_self (removeKey g "Research") "Timed Research" hnd2
    revert this
    cases hb : hasKey (removeKey (removeKey g "Research") "Timed Research") "Timed Research"
    · intro _; rfl
    · intro hthis; exact absurd (hasKey_eq_true_iff.mp hb) hthis
  · intro sl hsl
    rw [hstage] at hsl
    rcases List.mem_singleton.mp hsl with rfl
    simp [researchCombinedSorted, List.length_insertionSort]
  · intro p hp
    refine ⟨?_, researchCombinedSorted_label hp⟩
    rcases researchCombinedSorted_label hp with h | h <;> rw [h] <;> rfl
  · haveI : IsTotal (String × RawEvent)
        (fun p q => lexLe3 (researchKey parse now p) (researchKey parse now q)) :=
      ⟨fun a b => lexLe3_total _ _⟩
    haveI : IsTrans (String × RawEvent)
        (fun p q => lexLe3 (researchKey parse now p) (researchKey parse now q)) :=
      ⟨fun a b c => lexLe3_trans _ _ _⟩
    exact List.sorted_insertionSort _ _

/-- C5 witness: the amended research-merge statement evaluated on a concrete
two-group map with one Research and one Timed Research event. -/
theorem c5_research_merge_witness :
    (researchStage demoParse 700 researchDemoGroups).1 =
      [{ title := "Current research", subtitle := "Research + Timed Research",
         maxItems := some 50,
         items := some ((researchCombinedSorted demoParse 700
             (lookupGroup researchDemoGroups "Research")
             (lookupGroup (removeKey researchDemoGroups "Research") "Timed Research")).map
           (fun p => _event_to_list_item demoParse p.2 (some p.1))),
         url := leekUrl }] ∧
    (researchStage demoParse 700 researchDemoGroups).2 =
      removeKey (removeKey researchDemoGroups "Research") "Timed Research" ∧
    hasKey (researchStage demoParse 700 researchDemoGroups).2 "Research" = false ∧
    hasKey (researchStage demoParse 700 researchDemoGroups).2 "Timed Research" = false ∧
    (∀ sl ∈ (researchStage demoParse 700 researchDemoGroups).1,
      (sl.items.getD []).length =
        (lookupGroup researchDemoGroups "Research").length +
          (lookupGroup (removeKey researchDemoGroups "Research") "Timed Research").length) ∧
    (∀ p ∈ researchCombinedSorted demoParse 700
        (lookupGroup researchDemoGroups "Research")
        (lookupGroup (removeKey researchDemoGroups "Research") "Timed Research"),
      (_event_to_list_item demoParse p.2 (some p.1)).subtitle = p.1 ∧
      (p.1 = "Research" ∨ p.1 = "Timed Research")) ∧
    List.Sorted
      (fun p q => lexLe3 (researchKey demoParse 700 p) (researchKey demoParse 700 q))
      (researchCombinedSorted demoParse 700
        (lookupGroup researchDemoGroups "Research")
        (lookupGroup (removeKey researchDemoGroups "Research") "Timed Research")) :=
  c5_research_merge demoParse 700 researchDemoGroups (by decide)
    (Or.inl (by decide))

/-- Auxiliary: keys after a `setdefault`-append are the old keys or the new
one. -/
theorem mem_keys_groupAppend {g : Groups} {k k' : String} {e : RawEvent}
    (h : k' ∈ (groupAppend g k e).map Prod.fst) : k' ∈ g.map Prod.fst ∨ k' = k := by
  induction g with
  | nil =>
    simp only [groupAppend, List.map_cons, List.map_nil] at h
    exact Or.inr (List.mem_singleton.mp h)
  | cons p rest ih =>
    obtain ⟨k1, l⟩ := p
    by_cases he : k1 = k
    · simp only [groupAppend, if_pos he] at h
      exact Or.inl h
    · simp only [groupAppend, if_neg he, List.map_cons] at h
      rcases List.mem_cons.mp h with h2 | h2
      · exact Or.inl (List.mem_cons.mpr (Or.inl h2))
      · rcases ih h2 with h3 | h3
        · exact Or.inl (List.mem_cons.mpr (Or.inr h3))
        · exact Or.inr h3

/-- Auxiliary: a `setdefault`-append preserves distinctness of the keys. -/
theorem nodup_keys_groupAppend {g : Groups} {k : String} {e : RawEvent}
    (h : (g.map Prod.fst).Nodup) : ((groupAppend g k e).map Prod.fst).Nodup := by
  induction g with
  | nil => simp [groupAppend]
  | cons p rest ih =>
    obtain ⟨k1, l⟩ := p
    rw [List.map_cons, List.nodup_cons] at h
    by_cases he : k1 = k
    · simp only [groupAppend, if_pos he, List.map_cons, List.nodup_cons]
      exact ⟨h.1, h.2⟩
    · simp only [groupAppend, if_neg he, List.map_cons, List.nodup_cons]
      refine ⟨?_, ih h.2⟩
      intro hmem
      rcases mem_keys_groupAppend hmem with h2 | h2
      · exact h.1 h2
      · exact he h2

/-- Auxiliary: grouping (started from any key-distinct map) yields distinct
keys. -/
theorem nodup_keys_foldl_groupAppend :
    ∀ (evs : List RawEvent) (g : Groups), (g.map Prod.fst).Nodup →
      ((evs.foldl (fun g e => groupAppend g (headingKey e) e) g).map Prod.fst).Nodup := by
  intro evs
  induction evs with
  | nil => intro g h; exact h
  | cons e evs ih =>
    intro g h
    exact ih _ (nodup_keys_groupAppend h)

/-- Auxiliary: `groupByHeading` yields distinct keys. -/
theorem nodup_keys_groupByHeading (evs : List RawEvent) :
    ((groupByHeading evs).map Prod.fst).Nodup :=
  nodup_keys_foldl_groupAppend evs [] (by simp)

/-- Auxiliary: sorting the group values leaves the keys unchanged. -/
theorem keys_sortCurrentGroups (parse : String → Option PyDateTime) (now : Int)
    (g : Groups) : (sortCurrentGroups parse now g).map Prod.fst = g.map Prod.fst := by
  induction g with
  | nil => rfl
  | cons p rest ih =>
    simp only [sortCurrentGroups, List.map_cons] at *
    rw [ih]

/-- Auxiliary: the state left by the Season/GO Pass rule is the input map with
both keys removed. -/
theorem seasonGoPassStage_snd (parse : String → Option PyDateTime) (g : Groups) :
    (seasonGoPassStage parse g).2 = removeKey (removeKey g "Season") "GO Pass" := by
  rw [seasonGoPassStage]
  split <;> rfl

/-- Auxiliary: the state left by the research rule is the input map with both
research keys removed. -/
theorem researchStage_snd (parse : String → Option PyDateTime) (now : Int) (g : Groups) :
    (researchStage parse now g).2 = removeKey (removeKey g "Research") "Timed Research" := by
  rw [researchStage]
  split <;> rfl

/-- Auxiliary: the state left by the Raid Battles rule is the input map with
that key removed. -/
theorem raidStage_snd (parse : String → Option PyDateTime) (g : Groups) :
    (raidStage parse g).2 = removeKey g "Raid Battles" := by
  rw [raidStage]
  split <;> rfl

/-- Auxiliary: the groups map reaching the remaining-categories pass has
distinct keys. -/
theorem nodup_keys_currentGroupsAfterStages (parse : String → Option PyDateTime)
    (now : Int) (raw : List RawEvent) (sunday : Bool) :
    ((currentGroupsAfterStages parse now raw sunday).map Prod.fst).Nodup := by
  have h0 : ((if sunday then addTradeDay (groupByHeading (classifyEvents parse now raw).1)
      else groupByHeading (classifyEvents parse now raw).1).map Prod.fst).Nodup := by
    cases sunday
    · simpa using nodup_keys_groupByHeading (classifyEvents parse now raw).1
    · simp only [if_pos rfl, addTradeDay]
      exact nodup_keys_groupAppend (nodup_keys_groupByHeading _)
  have h1 : ((currentGroupsSorted parse now raw sunday).map Prod.fst).Nodup := by
    rw [currentGroupsSorted, keys_sortCurrentGroups]
    exact h0
  rw [currentGroupsAfterStages, raidStage_snd, researchStage_snd, seasonGoPassStage_snd]
  exact nodup_keys_removeKey _ (nodup_keys_removeKey _ (nodup_keys_removeKey _
    (nodup_keys_removeKey _ (nodup_keys_removeKey _ h1))))

/-- Auxiliary: the loop body on an empty group. -/
theorem remainingSlideFor_none {parse : String → Option PyDateTime} {g : Groups}
    {k : String} (h : (lookupGroup g k).isEmpty = true) :
    remainingSlideFor parse g k = none := by
  rw [remainingSlideFor]
  rw [if_pos h]

/-- Auxiliary: the loop body on a non-empty group. -/
theorem remainingSlideFor_some {parse : String → Option PyDateTime} {g : Groups}
    {k : String} (h : (lookupGroup g k).isEmpty = false) :
    remainingSlideFor parse g k = some (mkRemainingSlide parse k (lookupGroup g k)) := by
  rw [remainingSlideFor]
  rw [if_neg (by simp [h])]

/-- Auxiliary: the subtitles of the remaining-categories slides are exactly
the sorted keys filtered to non-empty groups. -/
theorem remainingSlides_map_subtitle (parse : String → Option PyDateTime) (g : Groups) :
    (remainingSlides parse g).map (fun sl => sl.subtitle) =
      ((g.map Prod.fst).insertionSort (fun a b => a ≤ b)).filter
        (fun k => !(lookupGroup g k).isEmpty) := by
  rw [remainingSlides]
  generalize (g.map Prod.fst).insertionSort (fun a b => a ≤ b) = ks
  induction ks with
  | nil => rfl
  | cons k ks ih =>
    rw [List.filterMap_cons, List.filter_cons]
    cases h : (lookupGroup g k).isEmpty
    · rw [remainingSlideFor_some h]
      simp only [h, Bool.not_false, if_true]
      rw [List.map_cons, ih]
      rfl
    · rw [remainingSlideFor_none h]
      simp only [h, Bool.not_true, Bool.false_eq_true, if_false]
      exact ih

/-- Auxiliary: the head group's list is what its key looks up. -/
theorem lookupGroup_cons_self {k : String} {l : List RawEvent} {rest : Groups} :
    lookupGroup ((k, l) :: rest) k = l := by
  rw [lookupGroup, List.find?_cons_of_pos _ (by simp)]

/-- Auxiliary: lookup skips a head entry with a different key. -/
theorem lookupGroup_cons_ne {k1 : String} {l : List RawEvent} {rest : Groups}
    {k : String} (h : k1 ≠ k) :
    lookupGroup ((k1, l) :: rest) k = lookupGroup rest k := by
  rw [lookupGroup, lookupGroup, List.find?_cons_of_neg _ (by simp [h])]

/-- Auxiliary: with distinct keys, the non-empty-lookup keys are in bijection
with the non-empty groups. -/
theorem filter_keys_length :
    ∀ (g : Groups), (g.map Prod.fst).Nodup →
      ((g.map Prod.fst).filter (fun k => !(lookupGroup g k).isEmpty)).length =
        (g.filter (fun p => !p.2.isEmpty)).length := by
  intro g
  induction g with
  | nil => intro _; rfl
  | cons p rest ih =>
    intro h
    obtain ⟨k1, l⟩ := p
    rw [List.map_cons, List.nodup_cons] at h
    have hcongr : (rest.map Prod.fst).filter
        (fun k => !(lookupGroup ((k1, l) :: rest) k).isEmpty) =
        (rest.map Prod.fst).filter (fun k => !(lookupGroup rest k).isEmpty) := by
      apply List.filter_congr
      intro x hx
      have hne : k1 ≠ x := fun he => h.1 (he ▸ hx)
      rw [lookupGroup_cons_ne hne]
    rw [List.map_cons, List.filter_cons, List.filter_cons]
    rw [lookupGroup_cons_self]
    cases hb : l.isEmpty
    · rw [if_pos (by simp [hb]), if_pos (by simp [hb]),
        List.length_cons, List.length_cons, hcongr, ih h.2]
    · rw [if_neg (by simp [hb]), if_neg (by simp [hb]), hcongr, ih h.2]

/-- C6: after the Season/GO Pass, research and Raid Battles rules have
consumed their groups, the remaining-categories pass emits one slide per
remaining non-empty current group with at most 10 items each (titled
`"Current <category>"`), and these slides appear in strictly ascending
alphabetical order of the normalized category key; inside `get_events` these
slides form a contiguous segment of the composed output. -/
theorem c6_remaining_categories (parse : String → Option PyDateTime) (now : Int)
    (raw : List RawEvent) (sunday : Bool) :
    (∀ sl ∈ remainingSlides parse (currentGroupsAfterStages parse now raw sunday),
      (sl.items.getD []).length ≤ 10 ∧ sl.title = "Current " ++ sl.subtitle) ∧
    ((remainingSlides parse (currentGroupsAfterStages parse now raw sunday)).map
      (fun sl => sl.subtitle)).Sorted (· < ·) ∧
    (remainingSlides parse (currentGroupsAfterStages parse now raw sunday)).length =
      ((currentGroupsAfterStages parse now raw sunday).filter
        (fun p => !p.2.isEmpty)).length ∧
    (remainingSlides parse (currentGroupsAfterStages parse now raw sunday) = [] ∨
      ∃ pre post, composeSlides parse raw now sunday =
        pre ++ remainingSlides parse (currentGroupsAfterStages parse now raw sunday)
          ++ post) := by
  refine ⟨?_, ?_, ?_, ?_⟩
  · intro sl hsl
    rw [remainingSlides] at hsl
    obtain ⟨k, _, hfk⟩ := List.mem_filterMap.mp hsl
    cases hb : (lookupGroup (currentGroupsAfterStages parse now raw sunday) k).isEmpty
    · rw [remainingSlideFor_some hb] at hfk
      obtain rfl := Option.some_injective _ hfk
      constructor
      · simp only [mkRemainingSlide, Option.getD_some, List.length_take]
        exact inf_le_left
      · rfl
    · rw [remainingSlideFor_none hb] at hfk
      exact Option.noConfusion hfk
  · rw [remainingSlides_map_subtitle]
    have hs : (((currentGroupsAfterStages parse now raw sunday).map
        Prod.fst).insertionSort (fun a b => a ≤ b)).Sorted (fun a b : String => a ≤ b) :=
      List.sorted_insertionSort _ _
    have hnd : (((currentGroupsAfterStages parse now raw sunday).map
        Prod.fst).insertionSort (fun a b => a ≤ b)).Nodup :=
      (List.perm_insertionSort _ _).nodup_iff.mpr
        (nodup_keys_currentGroupsAfterStages parse now raw sunday)
    exact (hs.lt_of_le hnd).filter _
  · rw [← List.length_map (remainingSlides parse
      (currentGroupsAfterStages parse now raw sunday)) (fun sl => sl.subtitle)]
    rw [remainingSlides_map_subtitle]
    rw [((List.perm_insertionSort (fun a b : String => a ≤ b) _).filter _).length_eq]
    exact filter_keys_length _ (nodup_keys_currentGroupsAfterStages parse now raw sunday)
  · cases hre : remainingSlides parse (currentGroupsAfterStages parse now raw sunday) with
    | nil => exact Or.inl rfl
    | cons x xs =>
      refine Or.inr ⟨(seasonGoPassStage parse (currentGroupsSorted parse now raw sunday)).1 ++
        (researchStage parse now
          (seasonGoPassStage parse (currentGroupsSorted parse now raw sunday)).2).1 ++
        (raidStage parse (researchStage parse now
          (seasonGoPassStage parse (currentGroupsSorted parse now raw sunday)).2).2).1,
        upcomingStage parse now (classifyEvents parse now raw).2, ?_⟩
      have h1 : composeSlides parse raw now sunday =
          if ((seasonGoPassStage parse (currentGroupsSorted parse now raw sunday)).1 ++
            (researchStage parse now
              (seasonGoPassStage parse (currentGroupsSorted parse now raw sunday)).2).1 ++
            (raidStage parse (researchStage parse now
              (seasonGoPassStage parse (currentGroupsSorted parse now raw sunday)).2).2).1 ++
            remainingSlides parse (currentGroupsAfterStages parse now raw sunday) ++
            upcomingStage parse now (classifyEvents parse now raw).2).isEmpty then
            [fallbackSlide]
          else
            (seasonGoPassStage parse (currentGroupsSorted parse now raw sunday)).1 ++
            (researchStage parse now
              (seasonGoPassStage parse (currentGroupsSorted parse now raw sunday)).2).1 ++
            (raidStage parse (researchStage parse now
              (seasonGoPassStage parse (currentGroupsSorted parse now raw sunday)).2).2).1 ++
            remainingSlides parse (currentGroupsAfterStages parse now raw sunday) ++
            upcomingStage parse now (classifyEvents parse now raw).2 := rfl
      rw [h1, hre]
      rw [if_neg (by simp)]

/-- Auxiliary: the events of a cons groups map. -/
theorem groupsEvents_cons (p : String × List RawEvent) (rest : Groups) :
    groupsEvents (p :: rest) = p.2 ++ groupsEvents rest := rfl

/-- Auxiliary: membership in the events of a groups map. -/
theorem mem_groupsEvents {g : Groups} {x : RawEvent} :
    x ∈ groupsEvents g ↔ ∃ p ∈ g, x ∈ p.2 := by
  rw [groupsEvents, List.mem_flatten]
  constructor
  · rintro ⟨l, hl, hx⟩
    obtain ⟨p, hp, rfl⟩ := List.mem_map.mp hl
    exact ⟨p, hp, hx⟩
  · rintro ⟨p, hp, hx⟩
    exact ⟨p.2, List.mem_map.mpr ⟨p, hp, rfl⟩, hx⟩

/-- Auxiliary: events after a `setdefault`-append are the old events or the
appended one. -/
theorem mem_groupsEvents_groupAppend {g : Groups} {k : String} {e x : RawEvent}
    (h : x ∈ groupsEvents (groupAppend g k e)) : x ∈ groupsEvents g ∨ x = e := by
  induction g with
  | nil =>
    simp only [groupAppend, groupsEvents, List.map_cons, List.map_nil,
      List.flatten_cons, List.flatten_nil, List.append_nil] at h
    exact Or.inr (List.mem_singleton.mp h)
  | cons p rest ih =>
    obtain ⟨k1, l⟩ := p
    by_cases he : k1 = k
    · simp only [groupAppend, if_pos he] at h
      rw [groupsEvents_cons] at h
      rcases List.mem_append.mp h with h2 | h2
      · rcases List.mem_append.mp h2 with h3 | h3
        · exact Or.inl (List.mem_append.mpr (Or.inl h3))
        · exact Or.inr (List.mem_singleton.mp h3)
      · exact Or.inl (List.mem_append.mpr (Or.inr h2))
    · simp only [groupAppend, if_neg he] at h
      rw [groupsEvents_cons] at h
      rcases List.mem_append.mp h with h2 | h2
      · exact Or.inl (List.mem_append.mpr (Or.inl h2))
      · rcases ih h2 with h3 | h3
        · exact Or.inl (List.mem_append.mpr (Or.inr h3))
        · exact Or.inr h3

/-- Auxiliary: events of a grouping fold come from the seed map or the list. -/
theorem mem_groupsEvents_foldl :
    ∀ (evs : List RawEvent) (g : Groups) (x : RawEvent),
      x ∈ groupsEvents (evs.foldl (fun g e => groupAppend g (headingKey e) e) g) →
        x ∈ groupsEvents g ∨ x ∈ evs := by
  intro evs
  induction evs with
  | nil => intro g x h; exact Or.inl h
  | cons e evs ih =>
    intro g x h
    rcases ih _ x h with h2 | h2
    · rcases mem_groupsEvents_groupAppend h2 with h3 | h3
      · exact Or.inl h3
      · exact Or.inr (List.mem_cons.mpr (Or.inl h3))
    · exact Or.inr (List.mem_cons.mpr (Or.inr h2))

/-- Auxiliary: events of `groupByHeading` come from the grouped list. -/
theorem mem_groupsEvents_groupByHeading {evs : List RawEvent} {x : RawEvent}
    (h : x ∈ groupsEvents (groupByHeading evs)) : x ∈ evs := by
  rcases mem_groupsEvents_foldl evs [] x h with h2 | h2
  · simp [groupsEvents] at h2
  · exact h2

/-- Auxiliary: events after the Sunday injection are the old events or a
synthetic Trade Day record. -/
theorem mem_groupsEvents_addTradeDay {g : Groups} {x : RawEvent}
    (h : x ∈ groupsEvents (addTradeDay g)) :
    x ∈ groupsEvents g ∨ x = tradeDayEvent "Event" ∨ x = tradeDayEvent "Events" := by
  rw [addTradeDay] at h
  by_cases hk : hasKey g "Event"
  · rw [if_pos hk] at h
    rcases mem_groupsEvents_groupAppend h with h2 | h2
    · exact Or.inl h2
    · exact Or.inr (Or.inl h2)
  · rw [if_neg hk] at h
    rcases mem_groupsEvents_groupAppend h with h2 | h2
    · exact Or.inl h2
    · exact Or.inr (Or.inr h2)

/-- Auxiliary: sorting group values preserves the events. -/
theorem mem_groupsEvents_sortCurrentGroups {parse : String → Option PyDateTime}
    {now : Int} {g : Groups} {x : RawEvent}
    (h : x ∈ groupsEvents (sortCurrentGroups parse now g)) : x ∈ groupsEvents g := by
  induction g with
  | nil => exact h
  | cons p rest ih =>
    rw [sortCurrentGroups, List.map_cons, groupsEvents_cons] at h
    rw [groupsEvents_cons]
    rcases List.mem_append.mp h with h2 | h2
    · exact List.mem_append.mpr (Or.inl ((List.mem_insertionSort _).mp h2))
    · exact List.mem_append.mpr (Or.inr (ih h2))

/-- Auxiliary: a lookup's events are events of the map. -/
theorem mem_lookupGroup {g : Groups} {k : String} {x : RawEvent}
    (h : x ∈ lookupGroup g k) : x ∈ groupsEvents g := by
  rw [lookupGroup] at h
  cases hf : g.find? (fun p => p.1 == k) with
  | none => rw [hf] at h; exact absurd h (List.not_mem_nil x)
  | some p =>
    rw [hf] at h
    exact mem_groupsEvents.mpr ⟨p, List.mem_of_find?_eq_some hf, h⟩

/-- Auxiliary: removing a key keeps a subset of the events. -/
theorem mem_groupsEvents_removeKey {g : Groups} {k : String} {x : RawEvent}
    (h : x ∈ groupsEvents (removeKey g k)) : x ∈ groupsEvents g := by
  induction g with
  | nil => exact h
  | cons p rest ih =>
    obtain ⟨k1, l⟩ := p
    by_cases he : k1 = k
    · simp only [removeKey, if_pos he] at h
      exact List.mem_append.mpr (Or.inr h)
    · simp only [removeKey, if_neg he] at h
      rw [groupsEvents_cons] at h
      rcases List.mem_append.mp h with h2 | h2
      · exact List.mem_append.mpr (Or.inl h2)
      · exact List.mem_append.mpr (Or.inr (ih h2))

/-- Auxiliary: every event of the sorted current-groups map is a classified
current event or a synthetic Trade Day record. -/
theorem mem_currentGroupsSorted_source {parse : String → Option PyDateTime}
    {now : Int} {raw : List RawEvent} {sunday : Bool} {x : RawEvent}
    (h : x ∈ groupsEvents (currentGroupsSorted parse now raw sunday)) :
    x ∈ (classifyEvents parse now raw).1 ∨
      x = tradeDayEvent "Event" ∨ x = tradeDayEvent "Events" := by
  rw [currentGroupsSorted] at h
  have h2 := mem_groupsEvents_sortCurrentGroups h
  cases sunday
  · simp only [if_neg Bool.false_ne_true] at h2
    exact Or.inl (mem_groupsEvents_groupByHeading h2)
  · simp only [if_pos rfl] at h2
    rcases mem_groupsEvents_addTradeDay h2 with h3 | h3
    · exact Or.inl (mem_groupsEvents_groupByHeading h3)
    · exact Or.inr h3

/-- Auxiliary: the Season/GO Pass rule emits nothing or one split slide of
fixed shape. -/
theorem seasonGoPassStage_fst (parse : String → Option PyDateTime) (g : Groups) :
    (seasonGoPassStage parse g).1 = [] ∨
    (seasonGoPassStage parse g).1 =
      [{ type := some "split-slide", title := "GO Pass", subtitle := "Current",
         items := some (((popGroup (popGroup g "Season").2 "GO Pass").1.map
           (fun e => _event_to_list_item parse e)).take 5),
         rightTitle := some "Season", rightSubtitle := some "Current",
         rightItems := some (((popGroup g "Season").1.map
           (fun e => _event_to_list_item parse e)).take 5),
         url := leekUrl }] := by
  rw [seasonGoPassStage]
  split
  · exact Or.inl rfl
  · exact Or.inr rfl

/-- Auxiliary: items of the split slide derive from events of the input map. -/
theorem seasonGoPassStage_items {parse : String → Option PyDateTime} {g : Groups}
    {sl : Slide} (hsl : sl ∈ (seasonGoPassStage parse g).1) :
    ∀ it ∈ slideAllItems sl,
      ∃ e, it = _event_to_list_item parse e ∧ e ∈ groupsEvents g := by
  rcases seasonGoPassStage_fst parse g with hf | hf
  · rw [hf] at hsl
    exact absurd hsl (List.not_mem_nil sl)
  · rw [hf] at hsl
    obtain rfl := List.mem_singleton.mp hsl
    intro it hit
    rw [slideAllItems] at hit
    simp only [Option.getD_some] at hit
    rcases List.mem_append.mp hit with h2 | h2 <;>
      obtain ⟨e, he, heq⟩ := List.mem_map.mp (List.mem_of_mem_take h2)
    · exact ⟨e, heq.symm, mem_groupsEvents_removeKey (mem_lookupGroup he)⟩
    · exact ⟨e, heq.symm, mem_lookupGroup he⟩

/-- Auxiliary: the research rule emits nothing or one slide of fixed shape. -/
theorem researchStage_fst (parse : String → Option PyDateTime) (now : Int) (g : Groups) :
    (researchStage parse now g).1 = [] ∨
    (researchStage parse now g).1 =
      [{ title := "Current research", subtitle := "Research + Timed Research",
         maxItems := some 50,
         items := some ((researchCombinedSorted parse now (popGroup g "Research").1
             (popGroup (popGroup g "Research").2 "Timed Research").1).map
           (fun p => _event_to_list_item parse p.2 (some p.1))),
         url := leekUrl }] := by
  rw [researchStage]
  split
  · exact Or.inl rfl
  · exact Or.inr rfl

/-- Auxiliary: items of the research slide derive from events of the input
map. -/
theorem researchStage_items {parse : String → Option PyDateTime} {now : Int}
    {g : Groups} {sl : Slide} (hsl : sl ∈ (researchStage parse now g).1) :
    ∀ it ∈ slideAllItems sl,
      ∃ e so, it = _event_to_list_item parse e so ∧ e ∈ groupsEvents g := by
  rcases researchStage_fst parse now g with hf | hf
  · rw [hf] at hsl
    exact absurd hsl (List.not_mem_nil sl)
  · rw [hf] at hsl
    obtain rfl := List.mem_singleton.mp hsl
    intro it hit
    rw [slideAllItems] at hit
    simp only [Option.getD_some, Option.getD_none, List.append_nil] at hit
    obtain ⟨p, hp, heq⟩ := List.mem_map.mp hit
    rw [researchCombinedSorted, List.mem_insertionSort] at hp
    rcases List.mem_append.mp hp with h2 | h2 <;>
      obtain ⟨e, he, heq2⟩ := List.mem_map.mp h2
    · refine ⟨e, some "Research", ?_, mem_lookupGroup he⟩
      rw [← heq, ← heq2]
    · refine ⟨e, some "Timed Research", ?_,
        mem_groupsEvents_removeKey (mem_lookupGroup he)⟩
      rw [← heq, ← heq2]

/-- Auxiliary: the Raid Battles rule emits nothing or one slide of fixed
shape. -/
theorem raidStage_fst (parse : String → Option PyDateTime) (g : Groups) :
    (raidStage parse g).1 = [] ∨
    (raidStage parse g).1 =
      [{ title := "Current Raid Battles", subtitle := "Raid Battles",
         items := some (((popGroup g "Raid Battles").1.map
           (fun e => _event_to_list_item parse e)).take 10),
         url := leekUrl }] := by
  rw [raidStage]
  split
  · exact Or.inl rfl
  · exact Or.inr rfl

/-- Auxiliary: items of the Raid Battles slide derive from events of the
input map. -/
theorem raidStage_items {parse : String → Option PyDateTime} {g : Groups}
    {sl : Slide} (hsl : sl ∈ (raidStage parse g).1) :
    ∀ it ∈ slideAllItems sl,
      ∃ e, it = _event_to_list_item parse e ∧ e ∈ groupsEvents g := by
  rcases raidStage_fst parse g with hf | hf
  · rw [hf] at hsl
    exact absurd hsl (List.not_mem_nil sl)
  · rw [hf] at hsl
    obtain rfl := List.mem_singleton.mp hsl
    intro it hit
    rw [slideAllItems] at hit
    simp only [Option.getD_some, Option.getD_none, List.append_nil] at hit
    obtain ⟨e, he, heq⟩ := List.mem_map.mp (List.mem_of_mem_take hit)
    exact ⟨e, heq.symm, mem_lookupGroup he⟩

/-- Auxiliary: items of the remaining-category slides derive from events of
the input map. -/
theorem remainingSlides_items {parse : String → Option PyDateTime} {g : Groups}
    {sl : Slide} (hsl : sl ∈ remainingSlides parse g) :
    ∀ it ∈ slideAllItems sl,
      ∃ e, it = _event_to_list_item parse e ∧ e ∈ groupsEvents g := by
  rw [remainingSlides] at hsl
  obtain ⟨k, _, hfk⟩ := List.mem_filterMap.mp hsl
  cases hb : (lookupGroup g k).isEmpty
  · rw [remainingSlideFor_some hb] at hfk
    obtain rfl := Option.some_injective _ hfk
    intro it hit
    rw [slideAllItems] at hit
    simp only [mkRemainingSlide, Option.getD_some, Option.getD_none,
      List.append_nil] at hit
    obtain ⟨e, he, heq⟩ := List.mem_map.mp (List.mem_of_mem_take hit)
    exact ⟨e, heq.symm, mem_lookupGroup he⟩
  · rw [remainingSlideFor_none hb] at hfk
    exact Option.noConfusion hfk

/-- Auxiliary: items of the upcoming slide derive from upcoming events. -/
theorem upcomingStage_items {parse : String → Option PyDateTime} {now : Int}
    {upc : List RawEvent} {sl : Slide} (hsl : sl ∈ upcomingStage parse now upc) :
    ∀ it ∈ slideAllItems sl,
      ∃ e, it = _event_to_list_item parse e (some (headingKey e)) ∧ e ∈ upc := by
  rw [upcomingStage] at hsl
  split at hsl
  · exact absurd hsl (List.not_mem_nil sl)
  · obtain rfl := List.mem_singleton.mp hsl
    intro it hit
    rw [slideAllItems] at hit
    simp only [Option.getD_some, Option.getD_none, List.append_nil] at hit
    obtain ⟨e, he, heq⟩ := List.mem_map.mp hit
    exact ⟨e, heq.symm, (List.mem_insertionSort _).mp he⟩

/-- Auxiliary: every item of every composed slide is built by
`_event_to_list_item` from a classified event or a synthetic Trade Day
record. -/
theorem composeSlides_item_sources (parse : String → Option PyDateTime)
    (raw : List RawEvent) (now : Int) (sunday : Bool) :
    ∀ sl ∈ composeSlides parse raw now sunday, ∀ it ∈ slideAllItems sl,
      ∃ e so, it = _event_to_list_item parse e so ∧
        (e ∈ (classifyEvents parse now raw).1 ∨ e ∈ (classifyEvents parse now raw).2 ∨
         e = tradeDayEvent "Event" ∨ e = tradeDayEvent "Events") := by
  intro sl hsl
  have h1 : composeSlides parse raw now sunday =
      if ((seasonGoPassStage parse (currentGroupsSorted parse now raw sunday)).1 ++
        (researchStage parse now
          (seasonGoPassStage parse (currentGroupsSorted parse now raw sunday)).2).1 ++
        (raidStage parse (researchStage parse now
          (seasonGoPassStage parse (currentGroupsSorted parse now raw sunday)).2).2).1 ++
        remainingSlides parse (currentGroupsAfterStages parse now raw sunday) ++
        upcomingStage parse now (classifyEvents parse now raw).2).isEmpty then
        [fallbackSlide]
      else
        (seasonGoPassStage parse (currentGroupsSorted parse now raw sunday)).1 ++
        (researchStage parse now
          (seasonGoPassStage parse (currentGroupsSorted parse now raw sunday)).2).1 ++
        (raidStage parse (researchStage parse now
          (seasonGoPassStage parse (currentGroupsSorted parse now raw sunday)).2).2).1 ++
        remainingSlides parse (currentGroupsAfterStages parse now raw sunday) ++
        upcomingStage parse now (classifyEvents parse now raw).2 := rfl
  rw [h1] at hsl
  split at hsl
  · obtain rfl := List.mem_singleton.mp hsl
    intro it hit
    simp [slideAllItems, fallbackSlide] at hit
  · rcases List.mem_append.mp hsl with h5 | hE
    · rcases List.mem_append.mp h5 with h4 | hD
      · rcases List.mem_append.mp h4 with h3 | hC
        · rcases List.mem_append.mp h3 with hA | hB
          · intro it hit
            obtain ⟨e, heq, hmem⟩ := seasonGoPassStage_items hA it hit
            refine ⟨e, none, heq, ?_⟩
            rcases mem_currentGroupsSorted_source hmem with h | h
            · exact Or.inl h
            · exact Or.inr (Or.inr h)
          · intro it hit
            obtain ⟨e, so, heq, hmem⟩ := researchStage_items hB it hit
            rw [seasonGoPassStage_snd] at hmem
            have hmem2 := mem_groupsEvents_removeKey (mem_groupsEvents_removeKey hmem)
            refine ⟨e, so, heq, ?_⟩
            rcases mem_currentGroupsSorted_source hmem2 with h | h
            · exact Or.inl h
            · exact Or.inr (Or.inr h)
        · intro it hit
          obtain ⟨e, heq, hmem⟩ := raidStage_items hC it hit
          rw [researchStage_snd, seasonGoPassStage_snd] at hmem
          have hmem2 := mem_groupsEvents_removeKey (mem_groupsEvents_removeKey
            (mem_groupsEvents_removeKey (mem_groupsEvents_removeKey hmem)))
          refine ⟨e, none, heq, ?_⟩
          rcases mem_currentGroupsSorted_source hmem2 with h | h
          · exact Or.inl h
          · exact Or.inr (Or.inr h)
      · intro it hit
        obtain ⟨e, heq, hmem⟩ := remainingSlides_items hD it hit
        rw [currentGroupsAfterStages, raidStage_snd, researchStage_snd,
          seasonGoPassStage_snd] at hmem
        have hmem2 := mem_groupsEvents_removeKey (mem_groupsEvents_removeKey
          (mem_groupsEvents_removeKey (mem_groupsEvents_removeKey
            (mem_groupsEvents_removeKey hmem))))
        refine ⟨e, none, heq, ?_⟩
        rcases mem_currentGroupsSorted_source hmem2 with h | h
        · exact Or.inl h
        · exact Or.inr (Or.inr h)
    · intro it hit
      obtain ⟨e, heq, hmem⟩ := upcomingStage_items hE it hit
      exact ⟨e, some (headingKey e), heq, Or.inr (Or.inl hmem)⟩

/-- C3: an event whose normalized category case-insensitively equals an
excluded category contributes to no slide: every item of every composed slide
derives (via `_event_to_list_item`) from a source event whose heading is not
excluded, hence never from the excluded event. -/
theorem c3_excluded_category_never_shown (parse : String → Option PyDateTime)
    (raw : List RawEvent) (now : Int) (sunday : Bool) (e0 : RawEvent)
    (h0 : e0 ∈ raw) (hx : _is_excluded_heading e0.heading = true) :
    ∀ sl ∈ composeSlides parse raw now sunday, ∀ it ∈ slideAllItems sl,
      ∃ e so, it = _event_to_list_item parse e so ∧
        _is_excluded_heading e.heading = false ∧ e ≠ e0 := by
  intro sl hsl it hit
  obtain ⟨e, so, heq, hsrc⟩ := composeSlides_item_sources parse raw now sunday sl hsl it hit
  have hne : _is_excluded_heading e.heading = false := by
    rcases hsrc with h | h | h | h
    · obtain ⟨_, _, _, _, hf, _⟩ := (mem_classify_current.mp h).2
      exact hf
    · obtain ⟨_, _, _, _, hf, _⟩ := (mem_classify_upcoming.mp h).2
      exact hf
    · rw [h]
      decide
    · rw [h]
      decide
  refine ⟨e, so, heq, hne, ?_⟩
  intro he
  rw [he, hx] at hne
  exact Bool.noConfusion hne

/-- C3 witness: the exclusion property evaluated on a concrete raw list
holding one excluded Go Battle League event and one ordinary current event. -/
theorem c3_excluded_category_never_shown_witness :
    excludedEvent ∈ [excludedEvent, sampleEvent] ∧
    _is_excluded_heading excludedEvent.heading = true ∧
    ∀ sl ∈ composeSlides demoParse [excludedEvent, sampleEvent] demoNow false,
      ∀ it ∈ slideAllItems sl,
        ∃ e so, it = _event_to_list_item demoParse e so ∧
          _is_excluded_heading e.heading = false ∧ e ≠ excludedEvent :=
  ⟨by decide, by decide,
    c3_excluded_category_never_shown demoParse [excludedEvent, sampleEvent] demoNow
      false excludedEvent (by decide) (by decide)⟩

end PoGoEvents
